import Mathlib

/-!
Verification of the concurrency core of the `gphoto2` Rust crate
(`src/thread.rs`, `src/task.rs`, `src/context.rs`): the single-worker
executor (`ThreadManager`), the `Task` handle, the callback bridge on
`Context`, and the `Context` drop path.

The embedding is shallow: each Rust function of the core is transcribed
into a Lean definition over explicit state.  Machine concurrency is
modelled as an interleaving transition system: producer threads and the
worker thread contribute events, and every interleaving of events is a
trace of the system.
-/

namespace Gphoto2

/-! ## Executor model (`src/thread.rs`)

`ThreadManager` holds a `VecDeque` of boxed closures behind a mutex and a
single worker thread (`start_thread`) that repeatedly drains the queue and
runs each drained closure to completion, in order, before parking.

State of the transition system:
* `onceFired` — whether the `static START: Once` in `ensure_started` has run;
* `workers`   — how many worker threads have been spawned (`ThreadManager::new`
  spawns exactly one on each call);
* `queue`     — the `VecDeque<TaskFunc>` contents, front first (task ids);
* `running`   — ids of closures currently being executed by some worker;
* `finished`  — ids of closures that ran to completion, in completion order;
* `spawned`   — ids ever passed to `spawn_task`, in submission order
  (history variable, used only to state ordering properties).

Events: `ensureStarted` (any caller thread), `spawnTask t`
(`ThreadManager::spawn_task`: `push_back` then unpark), `beginRun t`
(a worker picks the front of the queue; the drain-then-run-in-order loop of
`start_thread` is, for one consumer, exactly pop-front), and `endRun t`
(the worker finishes its current closure).  A worker executes one closure
at a time, so `beginRun` requires fewer running closures than workers.
Distinct submissions are distinct boxed closures, so `spawnTask` requires a
fresh id. -/

structure ExecState where
  onceFired : Bool
  workers : Nat
  queue : List Nat
  running : List Nat
  finished : List Nat
  spawned : List Nat
deriving DecidableEq, Repr

inductive ExecEvent where
  | ensureStarted
  | spawnTask (t : Nat)
  | beginRun (t : Nat)
  | endRun (t : Nat)
deriving DecidableEq, Repr

/-- One step of the executor system; `none` means the event is not enabled
in the given state. -/
def execStep (s : ExecState) : ExecEvent → Option ExecState
  | .ensureStarted =>
      -- `ensure_started`: `START.call_once(|| THREAD_MANAGER = Some(ThreadManager::new()))`;
      -- `ThreadManager::new` spawns the single worker thread.
      some (if s.onceFired then s
            else { s with onceFired := true, workers := s.workers + 1 })
  | .spawnTask t =>
      -- `spawn_task`: push_back on the queue (requires the manager to exist).
      if s.onceFired ∧ t ∉ s.spawned then
        some { s with queue := s.queue ++ [t], spawned := s.spawned ++ [t] }
      else none
  | .beginRun t =>
      -- the worker loop takes the front of the queue; a worker runs one
      -- closure to completion before taking the next.
      match s.queue with
      | u :: rest =>
          if u = t ∧ s.running.length < s.workers then
            some { s with queue := rest, running := s.running ++ [t] }
          else none
      | [] => none
  | .endRun t =>
      -- the worker finishes the closure it is executing.
      if t ∈ s.running then
        some { s with running := s.running.erase t, finished := s.finished ++ [t] }
      else none

/-- The state at process start: `THREAD_MANAGER` is `None`, no worker thread,
nothing submitted. -/
def initExec : ExecState :=
  { onceFired := false, workers := 0, queue := [], running := [], finished := [], spawned := [] }

/-- States reachable by any interleaving of events from process start. -/
inductive ExecReachable : ExecState → Prop where
  | init : ExecReachable initExec
  | step {s e s'} : ExecReachable s → execStep s e = some s' → ExecReachable s'

/-- Inductive invariant of the executor: the `Once` guard means there is one
worker exactly when it has fired; each worker runs at most one closure;
submission order is preserved as finished ++ running ++ queue; ids are
distinct. -/
def ExecInv (s : ExecState) : Prop :=
  s.workers = (if s.onceFired then 1 else 0) ∧
  s.running.length ≤ s.workers ∧
  s.finished ++ s.running ++ s.queue = s.spawned ∧
  s.spawned.Nodup

/-! ## Task handle and callback bridge (`src/task.rs`, `src/context.rs`)

`Task<T>` holds: the one-shot result channel (`crossbeam_channel::bounded(1)`),
an `Arc<AtomicBool>` cancel flag, a bounded(1) waker channel plus a
`waker_set` flag, the not-yet-taken closure, an optional bound context
pointer, and an optional progress handler.

Closures are `FnOnce() -> T`; during the run the native library may poll
the cancel predicate installed in the bound context, and the closure's
result may depend on the answer it observes.  A closure is therefore
modelled as a function of the `GPContextFeedback` the native library
observes during the run; with no predicate installed the native library
behaves as if the answer were `GP_CONTEXT_FEEDBACK_OK`. -/

variable {T W α : Type}

/-- A `crossbeam_channel::bounded(1)` channel: a one-slot buffer plus
whether the sender half is still alive.  Every sender in this code sends at
most once, into an empty slot. -/
structure Chan (α : Type) where
  buf : Option α
  senderAlive : Bool
deriving DecidableEq, Repr

def Chan.new : Chan α := { buf := none, senderAlive := true }

/-- `Sender::send` on the bounded(1) channel. -/
def Chan.send (c : Chan α) (v : α) : Chan α := { c with buf := some v }

inductive RecvErr where
  | disconnected
deriving DecidableEq, Repr

inductive TryRecvErr where
  | empty
  | disconnected
deriving DecidableEq, Repr

/-- `Receiver::recv`: take the buffered value; on an empty channel, error
out if the sender is gone, otherwise block (`none` models blocking
forever). -/
def Chan.recv (c : Chan α) : Option (Except RecvErr (α × Chan α)) :=
  match c.buf with
  | some v => some (Except.ok (v, { c with buf := none }))
  | none =>
      if c.senderAlive then none
      else some (Except.error RecvErr.disconnected)

/-- `Receiver::try_recv`: non-blocking receive. -/
def Chan.tryRecv (c : Chan α) : Except TryRecvErr (α × Chan α) :=
  match c.buf with
  | some v => Except.ok (v, { c with buf := none })
  | none =>
      if c.senderAlive then Except.error TryRecvErr.empty
      else Except.error TryRecvErr.disconnected

/-- The native `GPContext`'s two callback slots, as mutated by
`gp_context_set_progress_funcs` and `gp_context_set_cancel_func`
(context.rs 210-311): whether trampoline+data pointers are installed. -/
structure CtxSlots where
  progressInstalled : Bool
  cancelInstalled : Bool
deriving DecidableEq, Repr

/-- Both native slots cleared. -/
def CtxSlots.neutral : CtxSlots := { progressInstalled := false, cancelInstalled := false }

/-- `Context::set_progress_handlers` (context.rs 210-257). -/
def Context.set_progress_handlers (s : CtxSlots) : CtxSlots :=
  { s with progressInstalled := true }

/-- `Context::set_cancel_handler` (context.rs 259-289). -/
def Context.set_cancel_handler (s : CtxSlots) : CtxSlots :=
  { s with cancelInstalled := true }

/-- `Context::unset_progress_handlers` (context.rs 291-303). -/
def Context.unset_progress_handlers (s : CtxSlots) : CtxSlots :=
  { s with progressInstalled := false }

/-- `Context::unset_cancel_handlers` (context.rs 305-311). -/
def Context.unset_cancel_handlers (s : CtxSlots) : CtxSlots :=
  { s with cancelInstalled := false }

/-- `libgphoto2_sys::GPContextFeedback`. -/
inductive GPContextFeedback where
  | ok
  | cancel
deriving DecidableEq, Repr

/-- `impl CancelHandler for TaskCancelHandler` (task.rs 179-183): the
predicate loads the task's atomic cancel flag. -/
def TaskCancelHandler.cancel (flag : Bool) : Bool := flag

/-- The `handle_cancel` trampoline (context.rs 265-274): dispatch to the
handler and translate its answer into a `GPContextFeedback`. -/
def handle_cancel (flag : Bool) : GPContextFeedback :=
  if TaskCancelHandler.cancel flag then GPContextFeedback.cancel else GPContextFeedback.ok

/-- Steps performed by the boxed closure built in `Task::start_task`
(task.rs 75-102), in execution order. -/
inductive RunEffect where
  | installCancel
  | installProgress
  | callFun
  | uninstallCancel
  | uninstallProgress
  | sendResult
  | wakeWaker
deriving DecidableEq, Repr

/-- Output of one execution of the boxed closure of `Task::start_task` by
the worker thread. -/
structure RunOutput (T W : Type) where
  ctx : Option CtxSlots
  rx : Chan T
  wakerChan : Chan W
  woken : List W
  result : T
  feedback : GPContextFeedback
  progressDelivered : Nat
  effects : List RunEffect

/-- The boxed closure built in `Task::start_task` (task.rs 75-102), as run
by the worker thread:
if a context pointer was captured, install the cancel predicate and, when
present, the progress handler into its native slots; run the closure
(during which the native library observes the installed predicate's answer,
`ok` when none is installed, and raises `progressSignals` progress events
that reach the handler only if the progress trampolines are installed);
then uninstall both slots, send the result, and wake a registered waker if
one was received. -/
def runTaskClosure (ctx : Option CtxSlots) (hasProgress : Bool)
    (f : GPContextFeedback → T) (flag : Bool) (progressSignals : Nat)
    (rx : Chan T) (wakerChan : Chan W) : RunOutput T W :=
  let installed : Option CtxSlots :=
    ctx.map fun s =>
      let s1 := Context.set_cancel_handler s
      if hasProgress then Context.set_progress_handlers s1 else s1
  let installEffects : List RunEffect :=
    match ctx with
    | some _ =>
        if hasProgress then [RunEffect.installCancel, RunEffect.installProgress]
        else [RunEffect.installCancel]
    | none => []
  let feedback : GPContextFeedback :=
    match installed with
    | some s => if s.cancelInstalled then handle_cancel flag else GPContextFeedback.ok
    | none => GPContextFeedback.ok
  let result := f feedback
  let progressDelivered : Nat :=
    match installed with
    | some s => if s.progressInstalled then progressSignals else 0
    | none => 0
  let after : Option CtxSlots :=
    installed.map fun s => Context.unset_progress_handlers (Context.unset_cancel_handlers s)
  let uninstallEffects : List RunEffect :=
    match ctx with
    | some _ => [RunEffect.uninstallCancel, RunEffect.uninstallProgress]
    | none => []
  let rx1 := rx.send result
  let wkOut : Chan W × List W × List RunEffect :=
    match wakerChan.tryRecv with
    | Except.ok (w, wc) => (wc, [w], [RunEffect.wakeWaker])
    | Except.error _ => (wakerChan, [], [])
  { ctx := after
    rx := rx1
    wakerChan := wkOut.1
    woken := wkOut.2.1
    result := result
    feedback := feedback
    progressDelivered := progressDelivered
    effects := installEffects ++ [RunEffect.callFun] ++ uninstallEffects
      ++ [RunEffect.sendResult] ++ wkOut.2.2 }

/-- The fields of `Task<T>` (task.rs 25-34).  `task` is the
`ToBeRunTask` slot; `context` the `BackgroundPtr<GPContext>` together with
the native slots it points at; `progressHandler` whether a handler is
attached. -/
structure TaskH (T W : Type) where
  rx : Chan T
  cancel : Bool
  wakerChan : Chan W
  wakerSet : Bool
  task : Option (GPContextFeedback → T)
  context : Option CtxSlots
  progressHandler : Bool

/-- A task together with its (at most one) entry on the thread manager's
queue and the record of which wakers were woken.  `pendingWork` is the
boxed closure enqueued by `start_task` and not yet run; `ranClosure`
records whether the worker has executed the closure. -/
structure TaskSys (T W : Type) where
  th : TaskH T W
  pendingWork : Option ((GPContextFeedback → T) × Option CtxSlots × Bool)
  woken : List W
  ranClosure : Bool

/-- `Task::new` (task.rs 43-59): `ensure_started` (executor side, see
`execStep`), fresh bounded(1) result and waker channels, closure stored in
the `task` slot.  Nothing is enqueued. -/
def Task.new (f : GPContextFeedback → T) : TaskSys T W :=
  { th := { rx := Chan.new
            cancel := false
            wakerChan := Chan.new
            wakerSet := false
            task := some f
            context := none
            progressHandler := false }
    pendingWork := none
    woken := []
    ranClosure := false }

/-- `Task::context` (task.rs 61-65): bind a context pointer. -/
def Task.context (s : TaskSys T W) (sl : CtxSlots) : TaskSys T W :=
  { s with th := { s.th with context := some sl } }

/-- `Task::set_progress_handler` (task.rs 124-129). -/
def Task.set_progress_handler (s : TaskSys T W) : TaskSys T W :=
  { s with th := { s.th with progressHandler := true } }

/-- `Task::cancel` (task.rs 143-145): store `true` into the atomic cancel
flag; nothing else. -/
def Task.cancel (s : TaskSys T W) : TaskSys T W :=
  { s with th := { s.th with cancel := true } }

/-- Dropping a `Task` handle: `Task<T>` has no `Drop` impl, so dropping it
only destroys the stored closure (with its sender) and the handle's other
fields; it runs nothing and touches no queue. -/
def Task.dropHandle (s : TaskSys T W) : TaskSys T W :=
  { s with th := { s.th with task := none } }

/-- `Task::start_task` (task.rs 67-108): if the closure is still present,
take it together with the context pointer, the progress handler and the
waker receiver, box the run closure, and `spawn_task` it on the thread
manager. -/
def start_task (s : TaskSys T W) : TaskSys T W :=
  match s.th.task with
  | some f =>
      { s with
        th := { s.th with task := none, context := none, progressHandler := false }
        pendingWork := some (f, s.th.context, s.th.progressHandler) }
  | none => s

/-- `Task::background` (task.rs 148-150). -/
def Task.background (s : TaskSys T W) : TaskSys T W :=
  start_task s

/-- The worker thread dequeues and runs the task's boxed closure (the
`task()` call in `start_thread`, thread.rs 51-53), with the cancel flag at
its current value and `signals` native progress events during the run. -/
def workerRun (signals : Nat) (s : TaskSys T W) : TaskSys T W :=
  match s.pendingWork with
  | some (f, ctx, hp) =>
      let out := runTaskClosure ctx hp f s.th.cancel signals s.th.rx s.th.wakerChan
      { s with
        pendingWork := none
        ranClosure := true
        th := { s.th with rx := out.rx, wakerChan := out.wakerChan }
        woken := s.woken ++ out.woken }
  | none => s

inductive PollRes (T : Type) where
  | ready (v : T)
  | pending

/-- `impl Future for Task` (task.rs 159-176): if `waker_set` is still
false, send the current waker into the waker channel and set the flag;
call `start_task`; then `try_recv` the result channel — `Ok` gives
`Ready`, any error gives `Pending`.  Total function: never blocks. -/
def Task.pollFuture (s : TaskSys T W) (w : W) : TaskSys T W × PollRes T :=
  let s1 :=
    if s.th.wakerSet then s
    else { s with th := { s.th with wakerChan := s.th.wakerChan.send w, wakerSet := true } }
  let s2 := start_task s1
  match s2.th.rx.tryRecv with
  | Except.ok (v, rx1) => ({ s2 with th := { s2.th with rx := rx1 } }, PollRes.ready v)
  | Except.error _ => (s2, PollRes.pending)

/-- `Task::try_wait` (task.rs 116-119): `start_task` then block on
`rx.recv()`.  The blocking receive resolves once the worker thread has run
the enqueued closure (single worker, FIFO), so its outcome is the receive
performed after `workerRun`; `none` models blocking forever. -/
def try_wait (signals : Nat) (s : TaskSys T W) : Option (Except RecvErr T) :=
  let s1 := workerRun signals (start_task s)
  (s1.th.rx.recv).map fun e =>
    match e with
    | Except.ok (v, _) => Except.ok v
    | Except.error err => Except.error err

/-- `Task::wait` (task.rs 111-113): `self.try_wait().unwrap()`.  Outer
`none` = blocks forever; inner `none` = panic on an `Err` from
`try_wait`. -/
def Task.wait (signals : Nat) (s : TaskSys T W) : Option (Option T) :=
  (try_wait signals s).map fun e =>
    match e with
    | Except.ok v => some v
    | Except.error _ => none

/-- The consumer-facing operations on one task handle, as submitted by
caller threads: `Task::cancel`, dropping the handle,
`Task::set_progress_handler`, `Task::context`, and the three operations
that call `start_task` — the enqueue part of `wait`/`try_wait`, a `poll`
of the future, and `background`. -/
inductive TaskOp (W : Type) where
  | cancelReq
  | dropHandle
  | setProgress
  | bindContext (sl : CtxSlots)
  | startWait
  | startPoll (w : W)
  | startBackground
deriving DecidableEq, Repr

/-- Dispatch of one `TaskOp` to the corresponding code path. -/
def applyOp (s : TaskSys T W) : TaskOp W → TaskSys T W
  | TaskOp.cancelReq => Task.cancel s
  | TaskOp.dropHandle => Task.dropHandle s
  | TaskOp.setProgress => Task.set_progress_handler s
  | TaskOp.bindContext sl => Task.context s sl
  | TaskOp.startWait => start_task s
  | TaskOp.startPoll w => (Task.pollFuture s w).1
  | TaskOp.startBackground => Task.background s

/-- Operations that do not reach `start_task`. -/
def TaskOp.nonStarting : TaskOp W → Bool
  | TaskOp.startWait => false
  | TaskOp.startPoll _ => false
  | TaskOp.startBackground => false
  | _ => true

/-- A task whose closure aborted without ever sending into the result
channel: the closure and its `Sender` are gone (the channel reports
disconnection), no result was buffered, nothing remains queued. -/
def abortedTask : TaskSys Nat Nat :=
  { th := { rx := { buf := none, senderAlive := false }
            cancel := false
            wakerChan := Chan.new
            wakerSet := false
            task := none
            context := none
            progressHandler := false }
    pendingWork := none
    woken := []
    ranClosure := false }

/-- A concrete completed task: created, started, and run by the worker;
its result 42 sits in the result channel. -/
def sampleDoneTask : TaskSys Nat Nat :=
  workerRun 0 (start_task (Task.new fun _ => 42))

/-- `impl Drop for Context` (context.rs 62-70): builds
`Task::new(move || gp_context_unref(*context))` and immediately drops the
returned task handle — no `background()`, `wait()` or `poll` is invoked on
it (contrast `WidgetBase::drop`, widget.rs 68-77, which calls
`.background()` on the identically-built task).  The unref closure's
result is modelled as `Unit`. -/
def contextDropTask : TaskSys Unit Nat :=
  Task.dropHandle (Task.new fun _ => ())


lemma execInv_init : ExecInv initExec := by
  simp [ExecInv, initExec]

lemma running_eq_singleton {R : List Nat} {t : Nat} (h : t ∈ R) (hl : R.length ≤ 1) :
    R = [t] := by
  match R, h with
  | [x], h => simp at h; simp [h]
  | x :: y :: rest, _ => simp at hl

lemma execInv_step {s s' : ExecState} {e : ExecEvent} (hinv : ExecInv s)
    (hstep : execStep s e = some s') : ExecInv s' := by
  obtain ⟨hw, hr, hord, hnd⟩ := hinv
  cases e with
  | ensureStarted =>
      simp only [execStep, Option.some.injEq] at hstep
      subst hstep
      by_cases h : s.onceFired
      · simpa [h] using ⟨hw, hr, hord, hnd⟩
      · simp [h] at hw
        simp [ExecInv, h, hw, hord, hnd]
        omega
  | spawnTask t =>
      simp only [execStep] at hstep
      split at hstep
      · rename_i hcond
        simp only [Option.some.injEq] at hstep
        subst hstep
        refine ⟨hw, hr, ?_, ?_⟩
        · simp only [← hord]
          simp [List.append_assoc]
        · simp [List.nodup_append, hnd, hcond.2]
      · exact absurd hstep (by simp)
  | beginRun t =>
      simp only [execStep] at hstep
      split at hstep
      · rename_i u rest hq
        split at hstep
        · rename_i hcond
          simp only [Option.some.injEq] at hstep
          subst hstep
          obtain ⟨hu, hlt⟩ := hcond
          subst hu
          refine ⟨hw, by simpa using hlt, ?_, hnd⟩
          simp only [← hord, hq]
          simp
        · exact absurd hstep (by simp)
      · exact absurd hstep (by simp)
  | endRun t =>
      simp only [execStep] at hstep
      split at hstep
      · rename_i hmem
        simp only [Option.some.injEq] at hstep
        subst hstep
        have hws : s.workers ≤ 1 := by
          rw [hw]; split <;> simp
        have hrt : s.running = [t] := running_eq_singleton hmem (le_trans hr hws)
        refine ⟨hw, ?_, ?_, hnd⟩
        · simp [hrt]
        · simp only [hrt, List.erase_cons_head, List.append_nil]
          simpa [hrt] using hord
      · exact absurd hstep (by simp)

lemma execInv_reachable {s : ExecState} (h : ExecReachable s) : ExecInv s := by
  induction h with
  | init => exact execInv_init
  | step _ hstep ih => exact execInv_step ih hstep

lemma workers_le_one {s : ExecState} (h : ExecReachable s) : s.workers ≤ 1 := by
  rw [(execInv_reachable h).1]
  split <;> simp

lemma sublist_pair_mem_left {x y : Nat} {u v : List Nat}
    (h : List.Sublist [x, y] (u ++ v)) (hn : (u ++ v).Nodup) (hy : y ∈ u) : x ∈ u := by
  induction u with
  | nil => simp at hy
  | cons a u' ih =>
      simp only [List.cons_append] at h hn
      rcases List.nodup_cons.mp hn with ⟨ha, hn'⟩
      cases h with
      | cons₂ _ h' => simp
      | cons _ h' =>
          rcases List.mem_cons.mp hy with hya | hyu
          · exact absurd (hya ▸ h'.subset (by simp : y ∈ [x, y])) ha
          · exact List.mem_cons_of_mem a (ih h' hn' hyu)

/-- C2: for every pair of tasks t1, t2 with t1's closure enqueued on the
executor before t2's (regardless of the submitting threads, i.e. in every
interleaving), t1's closure fully completes execution before t2's closure
begins: in every reachable state in which t2 is running or finished, t1 is
already finished. -/
theorem executor_fifo_ordering {s : ExecState} (h : ExecReachable s) {t1 t2 : Nat}
    (horder : List.Sublist [t1, t2] s.spawned)
    (hstarted : t2 ∈ s.running ∨ t2 ∈ s.finished) :
    t1 ∈ s.finished := by
  obtain ⟨hw, hr, hord, hnd⟩ := execInv_reachable h
  have hrl : s.running.length ≤ 1 := le_trans hr (workers_le_one h)
  have hne : t1 ≠ t2 := by
    have hpair := hnd.sublist horder
    simp [List.nodup_cons] at hpair
    exact hpair
  have hordFR : (s.finished ++ s.running) ++ s.queue = s.spawned := by
    simpa [List.append_assoc] using hord
  have hordF : s.finished ++ (s.running ++ s.queue) = s.spawned := by
    simpa [List.append_assoc] using hord
  rcases hstarted with hrun | hfin
  · -- t2 is running: place the pair inside finished ++ running, then rule out
    -- t1 running alongside t2 (at most one closure runs at a time).
    have h1 : t1 ∈ s.finished ++ s.running := by
      refine sublist_pair_mem_left (v := s.queue) ?_ ?_ (List.mem_append.mpr (Or.inr hrun))
      · rw [hordFR]; exact horder
      · rw [hordFR]; exact hnd
    rcases List.mem_append.mp h1 with h1f | h1r
    · exact h1f
    · exfalso
      have hsingle : s.running = [t1] := running_eq_singleton h1r hrl
      rw [hsingle] at hrun
      exact hne ((by simpa using hrun : t2 = t1)).symm
  · -- t2 already finished: the pair sits inside finished.
    refine sublist_pair_mem_left (v := s.running ++ s.queue) ?_ ?_ hfin
    · rw [hordF]; exact horder
    · rw [hordF]; exact hnd

/-- Witness for C2: the concrete trace ensure_started; spawn 0; spawn 1;
begin 0; end 0; begin 1 reaches a state where task 1 is running, and the
theorem yields that task 0 has finished. -/
theorem executor_fifo_ordering_witness :
    (0 : Nat) ∈ (ExecState.mk true 1 [] [1] [0] [0, 1]).finished := by
  have h1 : ExecReachable (ExecState.mk true 1 [] [] [] []) :=
    ExecReachable.step ExecReachable.init
      (show execStep initExec ExecEvent.ensureStarted = some (ExecState.mk true 1 [] [] [] [])
        by decide)
  have h2 : ExecReachable (ExecState.mk true 1 [0] [] [] [0]) :=
    ExecReachable.step h1
      (show execStep (ExecState.mk true 1 [] [] [] []) (ExecEvent.spawnTask 0) =
          some (ExecState.mk true 1 [0] [] [] [0]) by decide)
  have h3 : ExecReachable (ExecState.mk true 1 [0, 1] [] [] [0, 1]) :=
    ExecReachable.step h2
      (show execStep (ExecState.mk true 1 [0] [] [] [0]) (ExecEvent.spawnTask 1) =
          some (ExecState.mk true 1 [0, 1] [] [] [0, 1]) by decide)
  have h4 : ExecReachable (ExecState.mk true 1 [1] [0] [] [0, 1]) :=
    ExecReachable.step h3
      (show execStep (ExecState.mk true 1 [0, 1] [] [] [0, 1]) (ExecEvent.beginRun 0) =
          some (ExecState.mk true 1 [1] [0] [] [0, 1]) by decide)
  have h5 : ExecReachable (ExecState.mk true 1 [1] [] [0] [0, 1]) :=
    ExecReachable.step h4
      (show execStep (ExecState.mk true 1 [1] [0] [] [0, 1]) (ExecEvent.endRun 0) =
          some (ExecState.mk true 1 [1] [] [0] [0, 1]) by decide)
  have h6 : ExecReachable (ExecState.mk true 1 [] [1] [0] [0, 1]) :=
    ExecReachable.step h5
      (show execStep (ExecState.mk true 1 [1] [] [0] [0, 1]) (ExecEvent.beginRun 1) =
          some (ExecState.mk true 1 [] [1] [0] [0, 1]) by decide)
  exact executor_fifo_ordering h6 (List.Sublist.refl [0, 1]) (Or.inl (by decide))

/-- C3: in every reachable state of the executor at most one submitted
closure is executing process-wide; `ensure_started` spawns the worker
thread at most once (there is never more than one worker), a call from a
state where the `Once` has fired is a no-op, and a call from any state
leaves exactly one worker existing. -/
theorem executor_single_worker_mutual_exclusion {s : ExecState} (h : ExecReachable s) :
    s.running.length ≤ 1 ∧ s.workers ≤ 1 ∧
      (s.onceFired = true → execStep s ExecEvent.ensureStarted = some s) ∧
      (∀ s', execStep s ExecEvent.ensureStarted = some s' →
        s'.workers = 1 ∧ s'.onceFired = true) := by
  obtain ⟨hw, hr, -, -⟩ := execInv_reachable h
  have hws : s.workers ≤ 1 := workers_le_one h
  refine ⟨le_trans hr hws, hws, ?_, ?_⟩
  · intro hfired
    simp [execStep, hfired]
  · intro s' hstep
    simp only [execStep, Option.some.injEq] at hstep
    subst hstep
    by_cases hfired : s.onceFired = true
    · rw [if_pos hfired]
      exact ⟨by simpa [hfired] using hw, hfired⟩
    · rw [if_neg hfired]
      simp [hfired] at hw
      simp [hw]

/-- Witness for C3: instantiated at the concrete reachable state right after
the first `ensure_started` call. -/
theorem executor_single_worker_mutual_exclusion_witness :
    (ExecState.mk true 1 [] [] [] []).running.length ≤ 1 ∧
      (ExecState.mk true 1 [] [] [] []).workers ≤ 1 ∧
      ((ExecState.mk true 1 [] [] [] []).onceFired = true →
        execStep (ExecState.mk true 1 [] [] [] []) ExecEvent.ensureStarted =
          some (ExecState.mk true 1 [] [] [] [])) ∧
      (∀ s', execStep (ExecState.mk true 1 [] [] [] []) ExecEvent.ensureStarted = some s' →
        s'.workers = 1 ∧ s'.onceFired = true) :=
  executor_single_worker_mutual_exclusion
    (ExecReachable.step ExecReachable.init
      (show execStep initExec ExecEvent.ensureStarted = some (ExecState.mk true 1 [] [] [] [])
        by decide))


/-- C4: for every task whose closure runs to completion and produces a
value — error variants included — `try_wait`/`wait` return exactly the
value that run of the closure computed, never a stale or truncated one: the
delivered value is the `result` field of the very `runTaskClosure`
execution the worker performed. -/
theorem task_wait_result_fidelity {s : TaskSys T W} {f : GPContextFeedback → T}
    (hf : s.th.task = some f) (hrx : s.th.rx.buf = none) (signals : Nat) :
    try_wait signals s =
      some (Except.ok ((runTaskClosure s.th.context s.th.progressHandler f s.th.cancel
        signals s.th.rx s.th.wakerChan).result)) ∧
    Task.wait signals s =
      some (some ((runTaskClosure s.th.context s.th.progressHandler f s.th.cancel
        signals s.th.rx s.th.wakerChan).result)) := by
  obtain ⟨⟨⟨b, al⟩, c, wc, ws, tk, cx, ph⟩, pw, wk, rc⟩ := s
  simp only at hf hrx
  subst hf hrx
  constructor <;> rfl

/-- Witness for C4, with an error variant as the computed value: waiting on
a task whose closure produced `Except.error 7` returns exactly
`Except.error 7`. -/
theorem task_wait_result_fidelity_witness :
    try_wait 0 (Task.new (W := Nat) fun _ => (Except.error 7 : Except Nat Nat)) =
      some (Except.ok (Except.error 7)) := by
  have h := (task_wait_result_fidelity
    (s := Task.new (W := Nat) fun _ => (Except.error 7 : Except Nat Nat))
    (f := fun _ => (Except.error 7 : Except Nat Nat)) rfl rfl 0).1
  exact h.trans rfl

/-- C5 counterexample: on the concrete task whose closure aborted without
sending a result, `Future::poll` reports plain `Pending` — exactly the
same observation as on a freshly created, not-yet-finished task — instead
of a distinct lost-result condition; and no later step can ever deliver a
result or wake the registered waker (nothing is queued, the buffer stays
empty, nobody is woken), so an awaiting consumer blocks forever. -/
theorem task_poll_lost_result_not_surfaced :
    (Task.pollFuture abortedTask 0).2 = PollRes.pending ∧
    (Task.pollFuture (Task.new fun _ => (0 : Nat)) 0).2 = PollRes.pending ∧
    (Task.pollFuture (Task.pollFuture abortedTask 0).1 1).2 = PollRes.pending ∧
    (workerRun 0 (Task.pollFuture abortedTask 0).1).woken = [] ∧
    (workerRun 0 (Task.pollFuture abortedTask 0).1).th.rx.buf = none :=
  ⟨rfl, rfl, rfl, rfl, rfl⟩

/-- C5 amended: for a task whose closure aborted without sending,
`try_wait` surfaces the distinct lost-result error (`RecvError` from the
disconnected channel) and `wait` panics on it rather than blocking, but
`poll` does not surface it: it returns `Pending` (with no deliverer left to
wake the waker, the future pends forever). -/
theorem task_lost_result_amended {s : TaskSys T W}
    (htask : s.th.task = none) (hpend : s.pendingWork = none)
    (hbuf : s.th.rx.buf = none) (hdead : s.th.rx.senderAlive = false)
    (w : W) (signals : Nat) :
    try_wait signals s = some (Except.error RecvErr.disconnected) ∧
    Task.wait signals s = some none ∧
    (Task.pollFuture s w).2 = PollRes.pending := by
  obtain ⟨⟨⟨b, al⟩, c, wc, ws, tk, cx, ph⟩, pw, wk, rc⟩ := s
  simp only at htask hpend hbuf hdead
  subst htask hpend hbuf hdead
  refine ⟨rfl, rfl, ?_⟩
  cases ws <;> rfl

/-- Witness for C5's amended statement, at the concrete aborted task. -/
theorem task_lost_result_amended_witness :
    try_wait 0 abortedTask = some (Except.error RecvErr.disconnected) ∧
    Task.wait 0 abortedTask = some none ∧
    (Task.pollFuture abortedTask 0).2 = PollRes.pending :=
  task_lost_result_amended rfl rfl rfl rfl 0 0

/-- C6: for every task bound to a context, after the worker runs the boxed
closure — whatever value (success or error) the closure's execution path
produced — both the cancel and the progress slots of the context are
uninstalled, leaving the context in the neutral state with no handler
pointer installed; and the uninstalls happen after the closure call in the
effect order. -/
theorem callback_bridge_restores_neutral (sl : CtxSlots) (hp : Bool)
    (f : GPContextFeedback → T) (flag : Bool) (signals : Nat)
    (rx : Chan T) (wc : Chan W) :
    (runTaskClosure (some sl) hp f flag signals rx wc).ctx = some CtxSlots.neutral ∧
    ∃ pre post, (runTaskClosure (some sl) hp f flag signals rx wc).effects =
      pre ++ [RunEffect.callFun, RunEffect.uninstallCancel, RunEffect.uninstallProgress]
        ++ post := by
  constructor
  · cases hp <;> rfl
  · rcases hwc : Chan.tryRecv wc with ⟨e⟩ | ⟨⟨w, wc1⟩⟩
    · cases hp
      · exact ⟨[RunEffect.installCancel], [RunEffect.sendResult],
          by simp [runTaskClosure, hwc]⟩
      · exact ⟨[RunEffect.installCancel, RunEffect.installProgress], [RunEffect.sendResult],
          by simp [runTaskClosure, hwc]⟩
    · cases hp
      · exact ⟨[RunEffect.installCancel], [RunEffect.sendResult, RunEffect.wakeWaker],
          by simp [runTaskClosure, hwc]⟩
      · exact ⟨[RunEffect.installCancel, RunEffect.installProgress],
          [RunEffect.sendResult, RunEffect.wakeWaker],
          by simp [runTaskClosure, hwc]⟩

lemma nonStarting_applyOp (s : TaskSys T W) (o : TaskOp W) (h : o.nonStarting = true) :
    (applyOp s o).pendingWork = s.pendingWork ∧ (applyOp s o).ranClosure = s.ranClosure := by
  cases o <;> simp_all [TaskOp.nonStarting, applyOp, Task.cancel, Task.dropHandle,
    Task.set_progress_handler, Task.context]

lemma nonStarting_foldl (ops : List (TaskOp W)) :
    ∀ s : TaskSys T W, (∀ o ∈ ops, o.nonStarting = true) →
      (ops.foldl applyOp s).pendingWork = s.pendingWork ∧
      (ops.foldl applyOp s).ranClosure = s.ranClosure := by
  induction ops with
  | nil => exact fun s _ => ⟨rfl, rfl⟩
  | cons o rest ih =>
      intro s hops
      have h1 := nonStarting_applyOp s o (hops o (by simp))
      have h2 := ih (applyOp s o) fun o' ho' => hops o' (by simp [ho'])
      simp only [List.foldl_cons]
      exact ⟨h2.1.trans h1.1, h2.2.trans h1.2⟩

/-- C7: `Task::new` enqueues nothing on the executor; any sequence of
non-starting operations (cancel, set_progress_handler, context binding,
dropping the handle) still enqueues nothing and the closure never runs;
and the closure is enqueued by the first `wait`/`try_wait`, `poll`, or
`background` call. -/
theorem task_new_lazy_start (f : GPContextFeedback → T) (w : W) (ops : List (TaskOp W))
    (hops : ∀ o ∈ ops, o.nonStarting = true) :
    (Task.new f : TaskSys T W).pendingWork = none ∧
    (ops.foldl applyOp (Task.new f)).pendingWork = none ∧
    (ops.foldl applyOp (Task.new f)).ranClosure = false ∧
    (start_task (Task.new f : TaskSys T W)).pendingWork = some (f, none, false) ∧
    (Task.background (Task.new f : TaskSys T W)).pendingWork = some (f, none, false) ∧
    (Task.pollFuture (Task.new f : TaskSys T W) w).1.pendingWork = some (f, none, false) := by
  obtain ⟨h1, h2⟩ := nonStarting_foldl ops (Task.new f) hops
  exact ⟨rfl, h1.trans rfl, h2.trans rfl, rfl, rfl, rfl⟩

/-- Witness for C7: a task that is created, cancelled and dropped never
enqueues or runs its closure; starting operations do enqueue it. -/
theorem task_new_lazy_start_witness :
    (Task.new (fun _ => (0 : Nat)) : TaskSys Nat Nat).pendingWork = none ∧
    ([TaskOp.cancelReq, TaskOp.dropHandle].foldl applyOp
      (Task.new (fun _ => (0 : Nat)) : TaskSys Nat Nat)).pendingWork = none ∧
    ([TaskOp.cancelReq, TaskOp.dropHandle].foldl applyOp
      (Task.new (fun _ => (0 : Nat)) : TaskSys Nat Nat)).ranClosure = false ∧
    (start_task (Task.new (fun _ => (0 : Nat)) : TaskSys Nat Nat)).pendingWork =
      some (fun _ => (0 : Nat), none, false) ∧
    (Task.background (Task.new (fun _ => (0 : Nat)) : TaskSys Nat Nat)).pendingWork =
      some (fun _ => (0 : Nat), none, false) ∧
    (Task.pollFuture (Task.new (fun _ => (0 : Nat)) : TaskSys Nat Nat) 5).1.pendingWork =
      some (fun _ => (0 : Nat), none, false) :=
  task_new_lazy_start (fun _ => (0 : Nat)) 5 [TaskOp.cancelReq, TaskOp.dropHandle] (by decide)

/-- C8 counterexample: two polls with different continuations (wakers 1
then 2) before the result is delivered; on delivery the worker invokes
only the first continuation — the second poll's continuation is never
invoked, although the result (42) is delivered. -/
theorem task_poll_second_continuation_dropped :
    (workerRun 0
      (Task.pollFuture (Task.pollFuture (Task.new fun _ => (42 : Nat)) 1).1 2).1).woken
      = [1] ∧
    (2 : Nat) ∉ (workerRun 0
      (Task.pollFuture (Task.pollFuture (Task.new fun _ => (42 : Nat)) 1).1 2).1).woken ∧
    (workerRun 0
      (Task.pollFuture (Task.pollFuture (Task.new fun _ => (42 : Nat)) 1).1 2).1).th.rx.buf
      = some 42 :=
  ⟨rfl, by decide, rfl⟩

/-- C8 amended: `poll` starts the task if not yet started, never blocks
(it is a total function), and reports ready without invoking anything when
the result is available; but only the continuation of the FIRST poll is
registered — the worker, on delivery, invokes exactly that first
continuation once, and continuations passed to later polls before delivery
are ignored (the registration is unchanged). -/
theorem task_poll_registers_first_waker (f : GPContextFeedback → T) (u v : W)
    (signals : Nat) :
    (Task.pollFuture (Task.new f) u).2 = PollRes.pending ∧
    (Task.pollFuture (Task.new f) u).1.pendingWork = some (f, none, false) ∧
    (Task.pollFuture (Task.new f) u).1.th.wakerChan.buf = some u ∧
    (Task.pollFuture (Task.pollFuture (Task.new f) u).1 v).2 = PollRes.pending ∧
    (Task.pollFuture (Task.pollFuture (Task.new f) u).1 v).1.th.wakerChan.buf = some u ∧
    (workerRun signals (Task.pollFuture (Task.pollFuture (Task.new f) u).1 v).1).woken
      = [u] ∧
    (∀ s : TaskSys T W, ∀ r : T, s.th.rx.buf = some r →
      (Task.pollFuture s v).2 = PollRes.ready r ∧
      (Task.pollFuture s v).1.woken = s.woken) := by
  refine ⟨rfl, rfl, rfl, rfl, rfl, rfl, ?_⟩
  intro s r hbuf
  obtain ⟨⟨⟨b, al⟩, c, wc, ws, tk, cx, ph⟩, pw, wk, rc⟩ := s
  simp only at hbuf
  subst hbuf
  cases ws <;> cases tk <;> exact ⟨rfl, rfl⟩

/-- Witness for C8's amended statement: polling the concrete completed
task reports ready with its value and invokes no continuation. -/
theorem task_poll_registers_first_waker_witness :
    (Task.pollFuture sampleDoneTask 9).2 = PollRes.ready 42 ∧
    (Task.pollFuture sampleDoneTask 9).1.woken = sampleDoneTask.woken :=
  (task_poll_registers_first_waker (fun _ => (42 : Nat)) 9 9 0).2.2.2.2.2.2
    sampleDoneTask 42 rfl

/-- C9: `Task::cancel` only stores `true` into the atomic cancel flag —
callable from any thread (any interleaving point), idempotent under
repetition, a no-op on the delivered result once the task has completed
(and in general on any task with nothing left to run); the predicate
installed in the bound context is exactly the flag reader
(`TaskCancelHandler`), the native library observes `CANCEL` when the flag
is set and `OK` otherwise, and the flag influences an execution only
through that observed feedback: every other output of a run (final slots,
woken wakers, effect order, progress deliveries) is flag-independent. -/
theorem task_cancel_cooperative (s : TaskSys T W) (sl : CtxSlots) (hp : Bool)
    (f : GPContextFeedback → T) (signals : Nat) (rx : Chan T) (wc : Chan W) :
    Task.cancel s = { s with th := { s.th with cancel := true } } ∧
    Task.cancel (Task.cancel s) = Task.cancel s ∧
    (s.th.task = none → s.pendingWork = none →
      try_wait signals (Task.cancel s) = try_wait signals s) ∧
    TaskCancelHandler.cancel true = true ∧
    handle_cancel true = GPContextFeedback.cancel ∧
    handle_cancel false = GPContextFeedback.ok ∧
    (∀ flag, (runTaskClosure (some sl) hp f flag signals rx wc).feedback =
      handle_cancel flag) ∧
    (∀ flag flag',
      (runTaskClosure (some sl) hp f flag signals rx wc).ctx =
        (runTaskClosure (some sl) hp f flag' signals rx wc).ctx ∧
      (runTaskClosure (some sl) hp f flag signals rx wc).woken =
        (runTaskClosure (some sl) hp f flag' signals rx wc).woken ∧
      (runTaskClosure (some sl) hp f flag signals rx wc).effects =
        (runTaskClosure (some sl) hp f flag' signals rx wc).effects ∧
      (runTaskClosure (some sl) hp f flag signals rx wc).progressDelivered =
        (runTaskClosure (some sl) hp f flag' signals rx wc).progressDelivered) := by
  refine ⟨rfl, rfl, ?_, rfl, rfl, rfl, ?_, ?_⟩
  · intro htask hpend
    obtain ⟨⟨⟨b, al⟩, c, wc1, ws, tk, cx, ph⟩, pw, wk, rc⟩ := s
    simp only at htask hpend
    subst htask hpend
    rfl
  · intro flag
    cases hp <;> rfl
  · intro flag flag'
    cases hp <;> exact ⟨rfl, rfl, rfl, rfl⟩

/-- Witness for C9: cancelling the concrete completed task leaves the
waited-for outcome untouched. -/
theorem task_cancel_cooperative_witness :
    try_wait 0 (Task.cancel sampleDoneTask) = try_wait 0 sampleDoneTask :=
  (task_cancel_cooperative sampleDoneTask CtxSlots.neutral false (fun _ => (0 : Nat)) 0
    Chan.new (Chan.new : Chan Nat)).2.2.1 rfl rfl

/-- C10: for a task with a progress handler but no bound context, running
the closure installs nothing into any context (no install effects, no
final context state), delivers no start/update/stop event to the handler,
and the cancel flag cannot influence the execution at all: the closure
observes `OK` feedback and the whole run output is identical for any two
flag values. -/
theorem no_context_no_callbacks (hp : Bool) (f : GPContextFeedback → T)
    (flag flag' : Bool) (signals : Nat) (rx : Chan T) (wc : Chan W) :
    (runTaskClosure none hp f flag signals rx wc).ctx = none ∧
    (runTaskClosure none hp f flag signals rx wc).progressDelivered = 0 ∧
    RunEffect.installProgress ∉ (runTaskClosure none hp f flag signals rx wc).effects ∧
    RunEffect.installCancel ∉ (runTaskClosure none hp f flag signals rx wc).effects ∧
    (runTaskClosure none hp f flag signals rx wc).result = f GPContextFeedback.ok ∧
    runTaskClosure none hp f flag signals rx wc =
      runTaskClosure none hp f flag' signals rx wc := by
  have heff : (runTaskClosure none hp f flag signals rx wc).effects =
      [RunEffect.callFun, RunEffect.sendResult] ∨
      (runTaskClosure none hp f flag signals rx wc).effects =
      [RunEffect.callFun, RunEffect.sendResult, RunEffect.wakeWaker] := by
    rcases hwc : Chan.tryRecv wc with ⟨e⟩ | ⟨⟨w, wc1⟩⟩
    · left; simp [runTaskClosure, hwc]
    · right; simp [runTaskClosure, hwc]
  refine ⟨rfl, rfl, ?_, ?_, rfl, rfl⟩ <;> rcases heff with h | h <;> rw [h] <;> decide

/-- C1, the code evaluated at the failing input: `impl Drop for Context`
builds the `gp_context_unref` task and drops it unstarted, so the release
closure is never enqueued on the work queue and never executed — and no
later step can enqueue it (the closure slot is already gone). -/
theorem context_drop_release_never_enqueued :
    contextDropTask.pendingWork = none ∧
    contextDropTask.ranClosure = false ∧
    start_task contextDropTask = contextDropTask ∧
    (∀ w, (Task.pollFuture contextDropTask w).1.pendingWork = none) ∧
    workerRun 0 contextDropTask = contextDropTask :=
  ⟨rfl, rfl, rfl, fun _ => rfl, rfl⟩

end Gphoto2
